import Mathlib

/-!
Verification of the schema-context assembly pipeline (`src/newops.py`).

The Python source is shallowly embedded: Python dicts (which preserve
insertion order and have unique keys) become association lists over
`String` keys, database query outcomes become `Except`/`Option`-valued
oracle fields of a `Database` record, and the dummy Redis client becomes
a `RedisClient` record.  All machine behaviour relevant to the claims
(string lowercasing, substring tests, sorting, truthiness, dictionary
overwrites, exception handling) is modelled explicitly.
-/

/-! ## String utilities (Python `str.lower`, `in`, `endswith`, `sorted`) -/

/-- Python `str.lower()` restricted to the character-wise lowering used here. -/
def lowerStr (s : String) : String := String.mk (s.data.map Char.toLower)

/-- Is `ndl` a contiguous sublist of the second argument?  (Python `ndl in hay`.) -/
def subListOf (ndl : List Char) : List Char → Bool
  | [] => ndl.isEmpty
  | c :: cs => ndl.isPrefixOf (c :: cs) || subListOf ndl cs

/-- Python substring test `ndl in hay`. -/
def strContainsSub (hay ndl : String) : Bool := subListOf ndl.data hay.data

/-- Python `s.endswith(sfx)`. -/
def strEndsWith (s sfx : String) : Bool := sfx.data.isSuffixOf s.data

/-- Lexicographic comparison of character lists by code point, the order
Python's `sorted` uses on strings. -/
def lexLeChars : List Char → List Char → Bool
  | [], _ => true
  | _ :: _, [] => false
  | a :: as, b :: bs =>
    if a < b then true
    else if b < a then false
    else lexLeChars as bs

/-- The order on strings used by Python's `sorted`. -/
def pyLe (a b : String) : Prop := lexLeChars a.data b.data = true

instance : DecidableRel pyLe := fun a b => by
  unfold pyLe; infer_instance

/-- Python `sorted` on a list of strings. -/
def sortedStrings (l : List String) : List String := List.insertionSort pyLe l

/-! ## Values observed in a database column (`NULL`, strings, anything else) -/

/-- A value returned by a `SELECT DISTINCT` probe of a column: SQL `NULL`
(Python `None`), a Python `str`, or a value of any other Python type. -/
inductive PyVal where
  | vnull : PyVal
  | vstr : String → PyVal
  | vother : PyVal
  deriving DecidableEq

/-- Python truthiness-and-type test `value and isinstance(value, str)`:
yields the string exactly when the value is a non-empty string. -/
def pyTruthyStr : PyVal → Option String
  | .vstr s => if s.isEmpty then none else some s
  | _ => none

/-! ## Association lists standing for Python dicts -/

/-- First-match lookup, `d.get(k)` / `d[k]`. -/
def alistGet {α : Type} (k : String) : List (String × α) → Option α
  | [] => none
  | (k1, v) :: rest => if k1 = k then some v else alistGet k rest

/-- Python `k in d`. -/
def alistContains {α : Type} (k : String) (l : List (String × α)) : Bool :=
  (alistGet k l).isSome

/-- Python `d[k] = v`: replace in place when the key exists, else append,
preserving insertion order exactly as a Python dict does. -/
def alistInsert {α : Type} (k : String) (v : α) : List (String × α) → List (String × α)
  | [] => [(k, v)]
  | (k1, v1) :: rest => if k1 = k then (k1, v) :: rest else (k1, v1) :: alistInsert k v rest

/-- Update the value stored at an existing key. -/
def alistModify {α : Type} (k : String) (f : α → α) : List (String × α) → List (String × α)
  | [] => []
  | (k1, v1) :: rest => if k1 = k then (k1, f v1) :: rest else (k1, v1) :: alistModify k f rest

/-! ## The data model of the schema context -/

structure ColumnInfo where
  data_type : String
  is_nullable : Bool
  deriving DecidableEq

structure TableInfo where
  columns : List (String × ColumnInfo)
  primary_keys : List String
  foreign_keys : List String
  deriving DecidableEq

structure ColumnAnalysis where
  is_categorical : Bool
  unique_values : List PyVal
  semantic_type : String
  deriving DecidableEq

structure EntityMapping where
  table : String
  filter_condition : String
  description : String
  deriving DecidableEq

structure EntityResolution where
  maps_to : String
  description : String
  deriving DecidableEq

structure NaturalLanguageGuide where
  available_tables : List String
  entity_resolution : List (String × EntityResolution)
  deriving DecidableEq

structure SchemaMetadata where
  cached : Bool
  cache_key : String
  deriving DecidableEq

/-- The aggregate assembled by `fetch_schema_context`.  `semantic_context`
holds the `table_purposes` mapping (the only key the code ever puts in the
`semantic_context` dict). -/
structure SchemaContext where
  tables : List (String × TableInfo)
  relationships : List String
  entity_mappings : List (String × EntityMapping)
  semantic_context : List (String × String)
  column_value_analysis : List (String × List (String × ColumnAnalysis))
  natural_language_guide : NaturalLanguageGuide
  metadata : SchemaMetadata
  deriving DecidableEq

/-! ## The database oracle -/

/-- The two classes of exception distinguished by the code's handlers:
`psycopg2.Error` and every other `Exception`. -/
inductive PyErr where
  | pgError : String → PyErr
  | genError : String → PyErr
  deriving DecidableEq

/-- One row of the `information_schema` table/column query.  `is_nullable`
is the raw catalog string, compared against "YES" by the code. -/
structure CatalogRow where
  table_name : String
  column_name : String
  data_type : String
  is_nullable : String
  deriving DecidableEq

/-- One row of the primary-key query. -/
structure PkRow where
  table_name : String
  column_name : String
  deriving DecidableEq

/-- Outcome of the two per-column profiling queries:
`SELECT DISTINCT "c" FROM "t" LIMIT 20` and `SELECT COUNT(DISTINCT "c")`. -/
structure ProfileResult where
  sampled_values : List PyVal
  distinct_count : Nat
  deriving DecidableEq

/-- The visible behaviour of the catalog database during one pipeline run:
connection setup, the two catalog queries (parameterised by the effective
table filter), and the per-column profiling queries (`none` means the
queries raised and the inner `except` swallowed the error). -/
structure Database where
  connect : Except PyErr Unit
  catalog_rows : Option (List String) → Except PyErr (List CatalogRow)
  pk_rows : Option (List String) → Except PyErr (List PkRow)
  profile : String → String → Option ProfileResult

/-- Python truthiness of the `table_names` argument: `None` and the empty
list both mean "no filter, all tables". -/
def effectiveFilter (tableNames : Option (List String)) : Option (List String) :=
  match tableNames with
  | some ts => if ts.isEmpty then none else some ts
  | none => none

/-! ## The dummy Redis client and cache key (lines 21-51) -/

/-- The cache backend interface actually exercised by the code:
`is_connected`, `get_cached_schema`, and `cache_schema` (whose `Bool`
result reports write success).  The write is modelled by its returned
status; the stored payload does not influence anything the code does. -/
structure RedisClient where
  connected : Bool
  get_cached_schema : String → Option SchemaContext
  cache_schema : String → Bool

def RedisClient.is_connected (rc : RedisClient) : Bool := rc.connected

/-- `StandaloneRedisClient`: always disconnected, always misses, write
always returns `False`. -/
def standaloneRedisClient : RedisClient :=
  { connected := false
    get_cached_schema := fun _ => none
    cache_schema := fun _ => false }

/-- `generate_schema_cache_key` (lines 38-47). -/
def generate_schema_cache_key (tableNames : Option (List String)) (includeSamples : Bool) :
    String :=
  let key :=
    match tableNames with
    | some ts =>
      if ts.isEmpty then "schema:all_tables"
      else "schema:" ++ String.intercalate "_" (sortedStrings ts)
    | none => "schema:all_tables"
  if includeSamples then key ++ ":with_samples" else key

/-! ## Column profiler (lines 180-206, 245-256) -/

/-- `_infer_semantic_type` (lines 245-256).  The `dataType` argument is
accepted, as in the source, but never inspected. -/
def _infer_semantic_type (columnName dataType : String) : String :=
  let columnLower := lowerStr columnName
  if strContainsSub columnLower "email" then "email"
  else if strContainsSub columnLower "phone" then "phone"
  else if strContainsSub columnLower "password" then "password"
  else if strContainsSub columnLower "status" then "status"
  else if strContainsSub columnLower "role" then "role"
  else if strContainsSub columnLower "_at" then "timestamp"
  else if strContainsSub columnLower "id" then "identifier"
  else if strContainsSub columnLower "name" then "name"
  else "unknown"

/-- The declared types eligible for categorical detection (line 190). -/
def textFamily : List String := ["text", "varchar", "character varying"]

/-- The analysis a column starts from (lines 185-189). -/
def initialColumnAnalysis (columnName : String) (info : ColumnInfo) : ColumnAnalysis :=
  { is_categorical := false
    unique_values := []
    semantic_type := _infer_semantic_type columnName info.data_type }

/-- The per-column body of `_analyze_column_values` (lines 184-200): text
family columns are profiled, a distinct count of at most 10 flags the
column categorical and records the sampled values, and a raised profiling
query (`none`) is swallowed, leaving the initial analysis. -/
def analyzeOneColumn (db : Database) (tableName columnName : String) (info : ColumnInfo) :
    ColumnAnalysis :=
  let base := initialColumnAnalysis columnName info
  if info.data_type ∈ textFamily then
    match db.profile tableName columnName with
    | some r =>
      if r.distinct_count ≤ 10 then
        { base with is_categorical := true, unique_values := r.sampled_values }
      else base
    | none => base
  else base

/-- `_analyze_column_values` (lines 180-206).  Dict keys are unique, so the
nested loops that fill `column_value_analysis[t][c]` amount to a map over
tables and columns. -/
def _analyze_column_values (db : Database) (tables : List (String × TableInfo)) :
    List (String × List (String × ColumnAnalysis)) :=
  tables.map (fun t =>
    (t.1, t.2.columns.map (fun c => (c.1, analyzeOneColumn db t.1 c.1 c.2))))

/-- The chained `.get` lookup of one column's analysis (line 213). -/
def getAnalysis (cva : List (String × List (String × ColumnAnalysis))) (t c : String) :
    Option ColumnAnalysis :=
  match alistGet t cva with
  | some m => alistGet c m
  | none => none

/-! ## Entity mapper (lines 208-223) -/

/-- An ASCII apostrophe, the quote used in the generated filter fragment. -/
def singleQuote : String := String.mk [Char.ofNat 39]

/-- Entity term derivation (line 217): lowercase the value and append a
trailing "s" unless the lowercased value already ends in "s". -/
def entityKey (value : String) : String :=
  let lv := lowerStr value
  if strEndsWith lv "s" then lv else lv ++ "s"

/-- The mapping stored for one observed value (lines 218-222). -/
def mkEntityMapping (tableName columnName value : String) : EntityMapping :=
  { table := tableName
    filter_condition := "\"" ++ columnName ++ "\" = " ++ singleQuote ++ value ++ singleQuote
    description := "All " ++ value ++ "s from " ++ tableName ++ " table" }

/-- Process one observed value (lines 216-222): non-empty strings insert
(overwriting any earlier entry with the same term), everything else is
skipped. -/
def insertEntityVal (tableName columnName : String) (acc : List (String × EntityMapping))
    (v : PyVal) : List (String × EntityMapping) :=
  match pyTruthyStr v with
  | some s => alistInsert (entityKey s) (mkEntityMapping tableName columnName s) acc
  | none => acc

/-- The per-column body of `_build_entity_mappings` (lines 213-222): a
categorical analysis contributes one insertion per observed value. -/
def processColumn (cva : List (String × List (String × ColumnAnalysis))) (t c : String)
    (acc : List (String × EntityMapping)) : List (String × EntityMapping) :=
  match getAnalysis cva t c with
  | some a =>
    if a.is_categorical then a.unique_values.foldl (insertEntityVal t c) acc else acc
  | none => acc

/-- `_build_entity_mappings` (lines 208-223). -/
def _build_entity_mappings (tables : List (String × TableInfo))
    (cva : List (String × List (String × ColumnAnalysis))) : List (String × EntityMapping) :=
  tables.foldl (fun acc t =>
    t.2.columns.foldl (fun acc c => processColumn cva t.1 c.1 acc) acc) []

/-- The entry one observed value contributes, if any. -/
def valueEntry (t c : String) (v : PyVal) : Option (String × EntityMapping) :=
  (pyTruthyStr v).map (fun s => (entityKey s, mkEntityMapping t c s))

/-- All entries one column contributes, in value order. -/
def columnEntries (cva : List (String × List (String × ColumnAnalysis))) (t c : String) :
    List (String × EntityMapping) :=
  match getAnalysis cva t c with
  | some a => if a.is_categorical then a.unique_values.filterMap (valueEntry t c) else []
  | none => []

/-- The flattened stream of (term, mapping) insertions performed by
`_build_entity_mappings`, in iteration order: table insertion order, then
column insertion order, then value order. -/
def entityEntries (tables : List (String × TableInfo))
    (cva : List (String × List (String × ColumnAnalysis))) : List (String × EntityMapping) :=
  tables.flatMap (fun t => t.2.columns.flatMap (fun c => columnEntries cva t.1 c.1))

/-! ## Semantic annotator and guide generator (lines 225-243) -/

/-- The purpose chosen for one table (lines 229-232). -/
def table_purpose (tableName : String) (ti : TableInfo) : String :=
  let cols := ti.columns.map (fun c => lowerStr c.1)
  if "email" ∈ cols ∧ "password" ∈ cols then "User authentication and profile data"
  else "Stores " ++ tableName ++ " information"

/-- `_create_semantic_context` (lines 225-233), producing `table_purposes`. -/
def _create_semantic_context (tables : List (String × TableInfo)) : List (String × String) :=
  tables.map (fun t => (t.1, table_purpose t.1 t.2))

/-- The guide entry for one entity mapping (lines 239-242). -/
def mkEntityResolution (m : EntityMapping) : EntityResolution :=
  { maps_to := "SELECT * FROM \"" ++ m.table ++ "\" WHERE " ++ m.filter_condition
    description := m.description }

/-- `_generate_natural_language_guide` (lines 235-243). -/
def _generate_natural_language_guide (tables : List (String × TableInfo))
    (ems : List (String × EntityMapping)) : NaturalLanguageGuide :=
  { available_tables := tables.map Prod.fst
    entity_resolution := ems.map (fun e => (e.1, mkEntityResolution e.2)) }

/-! ## Catalog reader (lines 115-161) -/

/-- Fold the table/column query rows into the `tables` dict (lines 141-147). -/
def buildTables (rows : List CatalogRow) : List (String × TableInfo) :=
  rows.foldl (fun tables row =>
    let tables1 :=
      if alistContains row.table_name tables then tables
      else tables ++ [(row.table_name,
        { columns := [], primary_keys := [], foreign_keys := [] })]
    alistModify row.table_name (fun ti =>
      let info : ColumnInfo :=
        { data_type := row.data_type, is_nullable := row.is_nullable == "YES" }
      { ti with columns := alistInsert row.column_name info ti.columns }) tables1) []

/-- Fold the primary-key query rows into the `tables` dict (lines 157-160):
rows for unknown tables are dropped. -/
def addPrimaryKeys (pks : List PkRow) (tables : List (String × TableInfo)) :
    List (String × TableInfo) :=
  pks.foldl (fun tables row =>
    if alistContains row.table_name tables then
      alistModify row.table_name
        (fun ti => { ti with primary_keys := ti.primary_keys ++ [row.column_name] }) tables
    else tables) tables

/-! ## The pipeline and the cache orchestrator (lines 104-178) -/

/-- The four analysis passes (lines 164-167) applied to the discovered
tables, assembled into the context dict initialised at lines 117-123. -/
def assembleContext (db : Database) (tables : List (String × TableInfo)) (cacheKey : String) :
    SchemaContext :=
  let cva := _analyze_column_values db tables
  let ems := _build_entity_mappings tables cva
  { tables := tables
    relationships := []
    entity_mappings := ems
    semantic_context := _create_semantic_context tables
    column_value_analysis := cva
    natural_language_guide := _generate_natural_language_guide tables ems
    metadata := { cached := false, cache_key := cacheKey } }

/-- The body of the `try` block of `fetch_schema_context` after a cache
miss (lines 113-167): connection setup and the two catalog queries may
raise (propagated as `Except.error`), then the four analysis passes run
and the context is assembled with `metadata.cached = False`. -/
def run_pipeline (db : Database) (tableNames : Option (List String)) (cacheKey : String) :
    Except PyErr SchemaContext :=
  match db.connect with
  | .error e => .error e
  | .ok _ =>
    match db.catalog_rows (effectiveFilter tableNames) with
    | .error e => .error e
    | .ok rows =>
      match db.pk_rows (effectiveFilter tableNames) with
      | .error e => .error e
      | .ok pks => .ok (assembleContext db (addPrimaryKeys pks (buildTables rows)) cacheKey)

/-- The result dict of `fetch_schema_context`. -/
inductive FetchResult where
  | success : SchemaContext → Bool → FetchResult
  | error : String → FetchResult
  deriving DecidableEq

/-- The messages produced by the two `except` clauses (lines 175-178). -/
def errMessage : PyErr → String
  | .pgError m => "Database error: " ++ m
  | .genError m => "Unexpected error: " ++ m

/-- The return path for a freshly computed context (lines 169-173): when a
backend is connected the write is attempted and its boolean result is
discarded, after which `metadata.cached` is unconditionally set to `True`;
the top-level `cached` field echoes the final `metadata.cached`. -/
def freshReturn (rc : RedisClient) (cacheKey : String) (ctx : SchemaContext) : FetchResult :=
  if rc.is_connected then
    let _ := rc.cache_schema cacheKey
    let ctx1 := { ctx with metadata := { ctx.metadata with cached := true } }
    FetchResult.success ctx1 ctx1.metadata.cached
  else FetchResult.success ctx ctx.metadata.cached

/-- `fetch_schema_context` (lines 104-178). -/
def fetch_schema_context (rc : RedisClient) (db : Database)
    (tableNames : Option (List String)) (includeSamples : Bool) : FetchResult :=
  let cacheKey := generate_schema_cache_key tableNames includeSamples
  let fresh :=
    match run_pipeline db tableNames cacheKey with
    | .ok ctx => freshReturn rc cacheKey ctx
    | .error e => FetchResult.error (errMessage e)
  if rc.is_connected then
    match rc.get_cached_schema cacheKey with
    | some ctx => FetchResult.success ctx true
    | none => fresh
  else fresh

/-! ## Accessors used to state the claims -/

def FetchResult.metaCached : FetchResult → Option Bool
  | .success ctx _ => some ctx.metadata.cached
  | .error _ => none

def FetchResult.isSuccess : FetchResult → Bool
  | .success _ _ => true
  | .error _ => false

def FetchResult.mapContext (f : SchemaContext → SchemaContext) : FetchResult → FetchResult
  | .success ctx b => .success (f ctx) b
  | .error m => .error m

/-- A context with its cache key blanked, for comparing everything else. -/
def stripCacheKey (ctx : SchemaContext) : SchemaContext :=
  { ctx with metadata := { ctx.metadata with cache_key := "" } }

/-- The analysis recorded for one column by a successful pipeline run. -/
def pipelineAnalysisAt (db : Database) (tableNames : Option (List String))
    (cacheKey t c : String) : Option ColumnAnalysis :=
  match run_pipeline db tableNames cacheKey with
  | .ok ctx => getAnalysis ctx.column_value_analysis t c
  | .error _ => none

/-- The catalog info recorded for one column by a successful pipeline run. -/
def pipelineColumnInfoAt (db : Database) (tableNames : Option (List String))
    (cacheKey t c : String) : Option ColumnInfo :=
  match run_pipeline db tableNames cacheKey with
  | .ok ctx =>
    match alistGet t ctx.tables with
    | some ti => alistGet c ti.columns
    | none => none
  | .error _ => none

/-- The `tables` mapping of a successful pipeline run. -/
def pipelineTablesOf (db : Database) (tableNames : Option (List String)) (cacheKey : String) :
    Option (List (String × TableInfo)) :=
  match run_pipeline db tableNames cacheKey with
  | .ok ctx => some ctx.tables
  | .error _ => none

/-! ## The semantic-type rule table, for comparison with the claim -/

/-- A name-based rule: match a pattern as a substring or as a suffix of
the lowercased column name. -/
inductive NameRule where
  | substrRule : String → String → NameRule
  | suffixRule : String → String → NameRule

def ruleMatches (lowerName : String) : NameRule → Bool
  | .substrRule pat _ => strContainsSub lowerName pat
  | .suffixRule pat _ => strEndsWith lowerName pat

def ruleResult : NameRule → String
  | .substrRule _ r => r
  | .suffixRule _ r => r

/-- First-match evaluation of a rule table, defaulting to "unknown". -/
def evalNameRules (lowerName : String) : List NameRule → String
  | [] => "unknown"
  | r :: rest => if ruleMatches lowerName r then ruleResult r else evalNameRules lowerName rest

/-- Modelled from the spec: the claim's rule table, in which the `_at`
rule is a suffix test ("names ending in `_at`"). -/
def claimedSemanticRules : List NameRule :=
  [.substrRule "email" "email", .substrRule "phone" "phone",
   .substrRule "password" "password", .substrRule "status" "status",
   .substrRule "role" "role", .suffixRule "_at" "timestamp",
   .substrRule "id" "identifier", .substrRule "name" "name"]

/-- Modelled from the spec: the claim's semantic-type function. -/
def claimedSemanticType (columnName dataType : String) : String :=
  evalNameRules (lowerStr columnName) claimedSemanticRules

/-- The rule table with the `_at` rule as the substring test the code
performs; everything else as in the claim. -/
def amendedSemanticRules : List NameRule :=
  [.substrRule "email" "email", .substrRule "phone" "phone",
   .substrRule "password" "password", .substrRule "status" "status",
   .substrRule "role" "role", .substrRule "_at" "timestamp",
   .substrRule "id" "identifier", .substrRule "name" "name"]

/-! ## Concrete instances used by witnesses and counterexamples -/

/-- A backend that is connected, always misses on read, and whose write
always fails (returns `False`). -/
def rcConnected : RedisClient :=
  { connected := true
    get_cached_schema := fun _ => none
    cache_schema := fun _ => false }

/-- A catalog with no tables and no errors. -/
def dbEmpty : Database :=
  { connect := .ok ()
    catalog_rows := fun _ => .ok []
    pk_rows := fun _ => .ok []
    profile := fun _ _ => none }

/-- A catalog whose table/column query raises a database error. -/
def dbErr : Database :=
  { connect := .ok ()
    catalog_rows := fun _ => .error (.pgError "boom")
    pk_rows := fun _ => .ok []
    profile := fun _ _ => none }

/-- The context produced from the empty catalog. -/
def ctxEmpty : SchemaContext :=
  { tables := []
    relationships := []
    entity_mappings := []
    semantic_context := []
    column_value_analysis := []
    natural_language_guide := { available_tables := [], entity_resolution := [] }
    metadata := { cached := false, cache_key := "schema:all_tables" } }

/-- The context produced from the empty catalog when samples are requested. -/
def ctxEmptyS : SchemaContext :=
  { ctxEmpty with metadata :=
      { cached := false, cache_key := "schema:all_tables:with_samples" } }

/-- Catalog rows for one table `t` with text columns `c` and `d`. -/
def rowsTCD : List CatalogRow :=
  [{ table_name := "t", column_name := "c", data_type := "text", is_nullable := "YES" },
   { table_name := "t", column_name := "d", data_type := "text", is_nullable := "NO" }]

/-- A one-value profiling result. -/
def profileOne : ProfileResult := { sampled_values := [.vstr "x"], distinct_count := 1 }

/-- A database where every profiling query succeeds with one value. -/
def dbA : Database :=
  { connect := .ok ()
    catalog_rows := fun _ => .ok rowsTCD
    pk_rows := fun _ => .ok []
    profile := fun _ _ => some profileOne }

/-- Inject a profiling failure for exactly one column: the per-column value
queries of column `c` of table `t` raise, everything else is unchanged. -/
def failOn (db : Database) (t c : String) : Database :=
  { db with profile := fun t0 c0 =>
      if t0 = t ∧ c0 = c then none else db.profile t0 c0 }

/-- A profiling result with exactly 10 distinct values, all sampled. -/
def profileTen : ProfileResult :=
  { sampled_values :=
      [.vstr "v0", .vstr "v1", .vstr "v2", .vstr "v3", .vstr "v4",
       .vstr "v5", .vstr "v6", .vstr "v7", .vstr "v8", .vstr "v9"]
    distinct_count := 10 }

/-- A profiling result with 11 distinct values. -/
def profileEleven : ProfileResult :=
  { sampled_values :=
      [.vstr "v0", .vstr "v1", .vstr "v2", .vstr "v3", .vstr "v4",
       .vstr "v5", .vstr "v6", .vstr "v7", .vstr "v8", .vstr "v9", .vstr "v10"]
    distinct_count := 11 }

/-- A database whose profiling queries report exactly 10 distinct values. -/
def dbTen : Database :=
  { connect := .ok ()
    catalog_rows := fun _ => .ok []
    pk_rows := fun _ => .ok []
    profile := fun _ _ => some profileTen }

/-- A database whose profiling queries report 11 distinct values. -/
def dbEleven : Database :=
  { dbTen with profile := fun _ _ => some profileEleven }

/-- A `users` table carrying `Email` and `PASSWORD` columns. -/
def tiUsers : TableInfo :=
  { columns :=
      [("id", { data_type := "integer", is_nullable := false }),
       ("Email", { data_type := "text", is_nullable := false }),
       ("PASSWORD", { data_type := "text", is_nullable := false })]
    primary_keys := ["id"]
    foreign_keys := [] }

/-- An `orders` table with no email/password columns. -/
def tiOrders : TableInfo :=
  { columns := [("id", { data_type := "integer", is_nullable := false })]
    primary_keys := ["id"]
    foreign_keys := [] }

def tablesUsersOrders : List (String × TableInfo) :=
  [("users", tiUsers), ("orders", tiOrders)]

/-! ## Helper lemmas: the string order used by `sorted` -/

theorem lexLeChars_cons (x y : Char) (as bs : List Char) :
    lexLeChars (x :: as) (y :: bs) = true ↔ x < y ∨ (x = y ∧ lexLeChars as bs = true) := by
  simp only [lexLeChars]
  rcases lt_trichotomy x y with h | h | h
  · simp [h]
  · subst h; simp [lt_irrefl]
  · simp only [if_neg (lt_asymm h), if_pos h]
    constructor
    · intro hf; exact absurd hf (by simp)
    · rintro (hlt | ⟨rfl, _⟩)
      · exact absurd hlt (lt_asymm h)
      · exact absurd h (lt_irrefl x)

theorem lexLeChars_total : ∀ a b : List Char, lexLeChars a b = true ∨ lexLeChars b a = true
  | [], _ => Or.inl rfl
  | _ :: _, [] => Or.inr rfl
  | x :: as, y :: bs => by
    rcases lt_trichotomy x y with h | h | h
    · exact Or.inl ((lexLeChars_cons x y as bs).mpr (Or.inl h))
    · subst h
      rcases lexLeChars_total as bs with h2 | h2
      · exact Or.inl ((lexLeChars_cons x x as bs).mpr (Or.inr ⟨rfl, h2⟩))
      · exact Or.inr ((lexLeChars_cons x x bs as).mpr (Or.inr ⟨rfl, h2⟩))
    · exact Or.inr ((lexLeChars_cons y x bs as).mpr (Or.inl h))

theorem lexLeChars_trans : ∀ a b c : List Char,
    lexLeChars a b = true → lexLeChars b c = true → lexLeChars a c = true
  | [], _, _, _, _ => rfl
  | _ :: _, [], _, h1, _ => by simp [lexLeChars] at h1
  | _ :: _, _ :: _, [], _, h2 => by simp [lexLeChars] at h2
  | x :: as, y :: bs, z :: cs, h1, h2 => by
    rw [lexLeChars_cons] at h1 h2 ⊢
    rcases h1 with h1 | ⟨rfl, h1⟩
    · rcases h2 with h2 | ⟨rfl, h2⟩
      · exact Or.inl (h1.trans h2)
      · exact Or.inl h1
    · rcases h2 with h2 | ⟨rfl, h2⟩
      · exact Or.inl h2
      · exact Or.inr ⟨rfl, lexLeChars_trans as bs cs h1 h2⟩

theorem lexLeChars_antisymm : ∀ a b : List Char,
    lexLeChars a b = true → lexLeChars b a = true → a = b
  | [], [], _, _ => rfl
  | [], _ :: _, _, h2 => by simp [lexLeChars] at h2
  | _ :: _, [], h1, _ => by simp [lexLeChars] at h1
  | x :: as, y :: bs, h1, h2 => by
    rw [lexLeChars_cons] at h1 h2
    rcases h1 with h1 | ⟨rfl, h1⟩
    · rcases h2 with h2 | ⟨rfl, _⟩
      · exact absurd h2 (lt_asymm h1)
      · exact absurd h1 (lt_irrefl _)
    · rcases h2 with h2 | ⟨_, h2⟩
      · exact absurd h2 (lt_irrefl _)
      · rw [lexLeChars_antisymm as bs h1 h2]

theorem sortedStrings_perm (l1 l2 : List String) (h : l1.Perm l2) :
    sortedStrings l1 = sortedStrings l2 := by
  haveI : IsTotal String pyLe := ⟨fun a b => lexLeChars_total a.data b.data⟩
  haveI : IsTrans String pyLe := ⟨fun a b c => lexLeChars_trans a.data b.data c.data⟩
  haveI : IsAntisymm String pyLe :=
    ⟨fun a b h1 h2 => String.ext (lexLeChars_antisymm a.data b.data h1 h2)⟩
  exact List.eq_of_perm_of_sorted
    ((List.perm_insertionSort pyLe l1).trans (h.trans (List.perm_insertionSort pyLe l2).symm))
    (List.sorted_insertionSort pyLe l1) (List.sorted_insertionSort pyLe l2)

/-! ## Helper lemmas: string append -/

theorem string_append_with_samples_ne (k : String) : k ++ ":with_samples" ≠ k := by
  intro h
  have hlen := congrArg String.length h
  rw [String.length_append] at hlen
  have h13 : (":with_samples" : String).length = 13 := by decide
  rw [h13] at hlen
  omega

theorem string_append_left_inj (p a b : String) (h : p ++ a = p ++ b) : a = b := by
  have hd : (p ++ a).data = (p ++ b).data := congrArg String.data h
  rw [String.data_append, String.data_append] at hd
  exact String.ext (List.append_cancel_left hd)

theorem string_append_right_ne (a b s : String) (h : a ≠ b) : a ++ s ≠ b ++ s := by
  intro he
  apply h
  have hd : (a ++ s).data = (b ++ s).data := congrArg String.data he
  rw [String.data_append, String.data_append] at hd
  exact String.ext (List.append_cancel_right hd)

/-! ## Helper lemmas: the shape of the cache key -/

theorem generate_key_cons (x : String) (xs : List String) (b : Bool) :
    generate_schema_cache_key (some (x :: xs)) b =
      (if b then ("schema:" ++ String.intercalate "_" (sortedStrings (x :: xs))) ++ ":with_samples"
       else "schema:" ++ String.intercalate "_" (sortedStrings (x :: xs))) := by
  cases b <;> rfl

theorem generate_key_none (b : Bool) :
    generate_schema_cache_key none b =
      (if b then "schema:all_tables" ++ ":with_samples" else "schema:all_tables") := by
  cases b <;> rfl

theorem generate_key_nil (b : Bool) :
    generate_schema_cache_key (some []) b =
      (if b then "schema:all_tables" ++ ":with_samples" else "schema:all_tables") := by
  cases b <;> rfl

/-- C5, as frozen, is refuted: a caller-supplied table list can collide with
the all-tables key.  `["all_tables"]` sorts and joins to "all_tables", so its
key coincides with the `None` key, contradicting "keys differ between a named
table list and the all-tables case". -/
theorem C5_counterexample :
    generate_schema_cache_key (some ["all_tables"]) false =
      generate_schema_cache_key none false := by decide

/-- C5 amended: the cache key is the pure function of the request parameters
described by the claim; keys of permuted table lists coincide, keys with and
without `includeSamples` always differ, and the key of a non-empty table list
differs from the all-tables key **unless** the sorted, underscore-joined
names equal the literal string "all_tables". -/
theorem C5_amended :
    (∀ (l1 l2 : List String) (b : Bool), l1.Perm l2 →
      generate_schema_cache_key (some l1) b = generate_schema_cache_key (some l2) b) ∧
    (∀ tn : Option (List String),
      generate_schema_cache_key tn true ≠ generate_schema_cache_key tn false) ∧
    (∀ (l : List String) (b : Bool), l ≠ [] →
      String.intercalate "_" (sortedStrings l) ≠ "all_tables" →
      generate_schema_cache_key (some l) b ≠ generate_schema_cache_key none b) := by
  refine ⟨?_, ?_, ?_⟩
  · intro l1 l2 b h
    have hs := sortedStrings_perm l1 l2 h
    have hlen := h.length_eq
    cases l1 with
    | nil =>
      cases l2 with
      | nil => rfl
      | cons y ys => simp at hlen
    | cons x xs =>
      cases l2 with
      | nil => simp at hlen
      | cons y ys => rw [generate_key_cons, generate_key_cons, hs]
  · intro tn
    rcases tn with _ | l
    · rw [generate_key_none, generate_key_none]
      exact string_append_with_samples_ne _
    · cases l with
      | nil =>
        rw [generate_key_nil, generate_key_nil]
        exact string_append_with_samples_ne _
      | cons x xs =>
        rw [generate_key_cons, generate_key_cons]
        exact string_append_with_samples_ne _
  · intro l b hne hj
    cases l with
    | nil => exact absurd rfl hne
    | cons x xs =>
      rw [generate_key_cons, generate_key_none]
      have hbase : "schema:" ++ String.intercalate "_" (sortedStrings (x :: xs)) ≠
          "schema:all_tables" := by
        intro he
        exact hj (string_append_left_inj "schema:" _ "all_tables"
          (he.trans (by decide)))
      cases b
      · exact hbase
      · exact string_append_right_ne _ _ _ hbase

/-- Concrete instances of C5 amended: permuted lists agree, the
`includeSamples` flag discriminates, and a one-table list differs from the
all-tables key. -/
theorem C5_witness :
    generate_schema_cache_key (some ["b", "a"]) false =
      generate_schema_cache_key (some ["a", "b"]) false ∧
    generate_schema_cache_key none true ≠ generate_schema_cache_key none false ∧
    generate_schema_cache_key (some ["a"]) false ≠ generate_schema_cache_key none false :=
  ⟨C5_amended.1 ["b", "a"] ["a", "b"] false (List.Perm.swap "a" "b" []),
   C5_amended.2.1 none,
   C5_amended.2.2 ["a"] false (by decide) (by decide)⟩

/-- C3, as frozen, is refuted: the code's `_at` rule is a substring test,
not a suffix test.  On the column name "format_attr" (which contains "_at"
but does not end in it) the code yields "timestamp" while the claimed
suffix-based priority list yields "unknown". -/
theorem C3_counterexample :
    _infer_semantic_type "format_attr" "text" = "timestamp" ∧
    claimedSemanticType "format_attr" "text" = "unknown" ∧
    ("timestamp" : String) ≠ "unknown" := by decide

/-- C3 amended: semantic type inference is the first-match evaluation, on
the lowercased column name, of the claimed priority list with the `_at`
rule read as a substring test; names like "valid_at" still resolve to
"timestamp" rather than "identifier". -/
theorem C3_amended :
    (∀ columnName dataType : String,
      _infer_semantic_type columnName dataType =
        evalNameRules (lowerStr columnName) amendedSemanticRules) ∧
    _infer_semantic_type "valid_at" "timestamp with time zone" = "timestamp" ∧
    _infer_semantic_type "VALID_AT" "text" = "timestamp" :=
  ⟨fun _ _ => rfl, by decide, by decide⟩

/-- C4 confirmed: categorical detection runs only for declared types in the
text family; with a profiling result, the column is flagged categorical
exactly when the exact distinct count is at most 10, in which case
`unique_values` is the (up to 20) sampled distinct values — so with exactly
10 distinct values all 10 are captured — and otherwise `unique_values`
stays empty. -/
theorem C4_theorem (db : Database) (t c : String) (info : ColumnInfo) :
    (info.data_type ∉ textFamily →
      analyzeOneColumn db t c info = initialColumnAnalysis c info) ∧
    (∀ r : ProfileResult, info.data_type ∈ textFamily → db.profile t c = some r →
      ((analyzeOneColumn db t c info).is_categorical = true ↔ r.distinct_count ≤ 10) ∧
      ((analyzeOneColumn db t c info).unique_values =
        if r.distinct_count ≤ 10 then r.sampled_values else []) ∧
      (r.sampled_values.length = min 20 r.distinct_count → r.distinct_count = 10 →
        (analyzeOneColumn db t c info).unique_values = r.sampled_values ∧
        (analyzeOneColumn db t c info).unique_values.length = 10)) ∧
    (initialColumnAnalysis c info).is_categorical = false ∧
    (initialColumnAnalysis c info).unique_values = [] := by
  refine ⟨?_, ?_, rfl, rfl⟩
  · intro hmem
    simp only [analyzeOneColumn]
    rw [if_neg hmem]
  · intro r hmem hprof
    have he : analyzeOneColumn db t c info =
        (if r.distinct_count ≤ 10 then
          { initialColumnAnalysis c info with
              is_categorical := true, unique_values := r.sampled_values }
         else initialColumnAnalysis c info) := by
      simp [analyzeOneColumn, hprof, hmem]
    rw [he]
    by_cases hc10 : r.distinct_count ≤ 10
    · rw [if_pos hc10]
      refine ⟨by simp [hc10], by simp [hc10], ?_⟩
      intro hlen h10
      refine ⟨rfl, ?_⟩
      show r.sampled_values.length = 10
      rw [hlen, h10]
      decide
    · rw [if_neg hc10]
      exact ⟨by simp [initialColumnAnalysis, hc10], by simp [initialColumnAnalysis, hc10],
        fun _ h10 => absurd h10.le hc10⟩

/-- Concrete instances of C4: a text column with 10 distinct values is
categorical with all 10 values captured, one with 11 is not and keeps an
empty sample, and a non-text column is never profiled. -/
theorem C4_witness :
    (analyzeOneColumn dbTen "t" "c" { data_type := "text", is_nullable := true }).is_categorical
      = true ∧
    (analyzeOneColumn dbTen "t" "c"
      { data_type := "text", is_nullable := true }).unique_values.length = 10 ∧
    (analyzeOneColumn dbEleven "t" "c" { data_type := "text", is_nullable := true }).is_categorical
      = false ∧
    (analyzeOneColumn dbEleven "t" "c" { data_type := "text", is_nullable := true }).unique_values
      = [] ∧
    analyzeOneColumn dbTen "t" "c" { data_type := "integer", is_nullable := true } =
      initialColumnAnalysis "c" { data_type := "integer", is_nullable := true } := by
  have h10 := (C4_theorem dbTen "t" "c" { data_type := "text", is_nullable := true }).2.1
    profileTen (by decide) rfl
  have h11 := (C4_theorem dbEleven "t" "c" { data_type := "text", is_nullable := true }).2.1
    profileEleven (by decide) rfl
  have hnt := (C4_theorem dbTen "t" "c" { data_type := "integer", is_nullable := true }).1
    (by decide)
  refine ⟨h10.1.mpr (by decide), (h10.2.2 (by decide) rfl).2, ?_, ?_, hnt⟩
  · exact Bool.eq_false_iff.mpr (fun hb => by
      have h2 : (11 : Nat) ≤ 10 := h11.1.mp hb
      omega)
  · rw [h11.2.1]; decide

/-! ## Helper lemmas: the pipeline -/

theorem run_pipeline_ok_fields (db : Database) (tn : Option (List String)) (k : String)
    (ctx : SchemaContext) (h : run_pipeline db tn k = .ok ctx) :
    ctx = assembleContext db ctx.tables k ∧
    ctx.metadata.cached = false ∧ ctx.metadata.cache_key = k ∧ ctx.relationships = [] := by
  unfold run_pipeline at h
  rcases h1 : db.connect with e | u <;> rw [h1] at h
  · exact Except.noConfusion h
  rcases h2 : db.catalog_rows (effectiveFilter tn) with e | rows <;> rw [h2] at h
  · exact Except.noConfusion h
  rcases h3 : db.pk_rows (effectiveFilter tn) with e | pks <;> rw [h3] at h
  · exact Except.noConfusion h
  injection h with h
  subst h
  exact ⟨rfl, rfl, rfl, rfl⟩

theorem run_pipeline_failOn (db : Database) (tn : Option (List String)) (k t c : String) :
    run_pipeline (failOn db t c) tn k =
      (run_pipeline db tn k).map
        (fun ctx => assembleContext (failOn db t c) ctx.tables k) := by
  unfold run_pipeline
  simp only [failOn]
  rcases db.connect with e | u
  · rfl
  · rcases db.catalog_rows (effectiveFilter tn) with e | rows
    · rfl
    · rcases db.pk_rows (effectiveFilter tn) with e | pks
      · rfl
      · rfl

theorem run_pipeline_key (db : Database) (tn : Option (List String)) (k1 k2 : String) :
    run_pipeline db tn k1 =
      (run_pipeline db tn k2).map (fun ctx => assembleContext db ctx.tables k1) := by
  unfold run_pipeline
  rcases db.connect with e | u
  · rfl
  · rcases db.catalog_rows (effectiveFilter tn) with e | rows
    · rfl
    · rcases db.pk_rows (effectiveFilter tn) with e | pks
      · rfl
      · rfl

/-! ## Helper lemmas: looking up the column analysis -/

theorem alistGet_analyze (db : Database) (t : String) :
    ∀ tables : List (String × TableInfo),
      alistGet t (_analyze_column_values db tables) =
        (alistGet t tables).map
          (fun ti => ti.columns.map (fun cp => (cp.1, analyzeOneColumn db t cp.1 cp.2)))
  | [] => rfl
  | (k1, ti) :: rest => by
    simp only [_analyze_column_values, List.map, alistGet]
    by_cases h : k1 = t
    · subst h; simp
    · simp only [if_neg h]
      have ih := alistGet_analyze db t rest
      simp only [_analyze_column_values] at ih
      exact ih

theorem alistGet_columns_map (db : Database) (t c : String) :
    ∀ cols : List (String × ColumnInfo),
      alistGet c (cols.map (fun cp => (cp.1, analyzeOneColumn db t cp.1 cp.2))) =
        (alistGet c cols).map (fun info => analyzeOneColumn db t c info)
  | [] => rfl
  | (k1, info) :: rest => by
    simp only [List.map, alistGet]
    by_cases h : k1 = c
    · subst h; simp
    · simp only [if_neg h]
      exact alistGet_columns_map db t c rest

theorem getAnalysis_analyze (db : Database) (tables : List (String × TableInfo))
    (t c : String) :
    getAnalysis (_analyze_column_values db tables) t c =
      (alistGet t tables).bind
        (fun ti => (alistGet c ti.columns).map (fun info => analyzeOneColumn db t c info)) := by
  unfold getAnalysis
  rw [alistGet_analyze]
  cases alistGet t tables with
  | none => rfl
  | some ti => exact alistGet_columns_map db t c ti.columns

theorem analyzeOneColumn_fail (db : Database) (t c : String) (info : ColumnInfo)
    (h : db.profile t c = none) :
    analyzeOneColumn db t c info = initialColumnAnalysis c info := by
  simp only [analyzeOneColumn, h]
  split <;> rfl

theorem analyzeOneColumn_congr (db db2 : Database) (t c : String) (info : ColumnInfo)
    (h : db2.profile t c = db.profile t c) :
    analyzeOneColumn db2 t c info = analyzeOneColumn db t c info := by
  simp only [analyzeOneColumn, h]

/-! ## Helper lemmas: the cache orchestrator -/

theorem fetch_eq_fresh (rc : RedisClient) (db : Database) (tn : Option (List String))
    (inc : Bool)
    (hmiss : rc.connected = false ∨
      rc.get_cached_schema (generate_schema_cache_key tn inc) = none) :
    fetch_schema_context rc db tn inc =
      match run_pipeline db tn (generate_schema_cache_key tn inc) with
      | .ok ctx => freshReturn rc (generate_schema_cache_key tn inc) ctx
      | .error e => FetchResult.error (errMessage e) := by
  unfold fetch_schema_context RedisClient.is_connected
  cases hc : rc.connected with
  | false => simp
  | true =>
    rcases hmiss with hcf | hg
    · rw [hcf] at hc; exact Bool.noConfusion hc
    · simp [hg]

theorem fetch_eq_hit (rc : RedisClient) (db : Database) (tn : Option (List String))
    (inc : Bool) (ctx : SchemaContext) (hc : rc.connected = true)
    (hg : rc.get_cached_schema (generate_schema_cache_key tn inc) = some ctx) :
    fetch_schema_context rc db tn inc = .success ctx true := by
  unfold fetch_schema_context RedisClient.is_connected
  simp [hc, hg]

theorem freshReturn_connected (rc : RedisClient) (k : String) (ctx : SchemaContext)
    (hc : rc.connected = true) :
    freshReturn rc k ctx =
      .success { ctx with metadata := { ctx.metadata with cached := true } } true := by
  unfold freshReturn RedisClient.is_connected
  simp [hc]

theorem freshReturn_disconnected (rc : RedisClient) (k : String) (ctx : SchemaContext)
    (hc : rc.connected = false) :
    freshReturn rc k ctx = .success ctx ctx.metadata.cached := by
  unfold freshReturn RedisClient.is_connected
  simp [hc]

/-- C1, as frozen, is refuted: with a connected backend whose write fails
(`cache_schema` returns `False`), a freshly computed context (the read
missed) still reports `metadata.cached = true`, because line 171 sets the
flag unconditionally after the write, ignoring its boolean result. -/
theorem C1_counterexample :
    rcConnected.connected = true ∧
    rcConnected.get_cached_schema (generate_schema_cache_key none false) = none ∧
    rcConnected.cache_schema (generate_schema_cache_key none false) = false ∧
    (fetch_schema_context rcConnected dbEmpty none false).metaCached = some true := by
  decide

/-- C1 amended: on a successful fresh computation (cache disconnected or
read miss), `metadata.cached` equals `is_connected` — the write is merely
attempted and its result ignored — while a cache hit returns the stored
context verbatim with the top-level `cached` flag `true`, its
`metadata.cached` being exactly whatever was stored. -/
theorem C1_amended (rc : RedisClient) (db : Database) (tn : Option (List String))
    (inc : Bool) :
    (∀ ctx0 : SchemaContext,
      run_pipeline db tn (generate_schema_cache_key tn inc) = .ok ctx0 →
      (rc.connected = false ∨
        rc.get_cached_schema (generate_schema_cache_key tn inc) = none) →
      (fetch_schema_context rc db tn inc).metaCached = some rc.connected) ∧
    (∀ ctx : SchemaContext, rc.connected = true →
      rc.get_cached_schema (generate_schema_cache_key tn inc) = some ctx →
      fetch_schema_context rc db tn inc = .success ctx true ∧
      (fetch_schema_context rc db tn inc).metaCached = some ctx.metadata.cached) := by
  constructor
  · intro ctx0 hok hmiss
    rw [fetch_eq_fresh rc db tn inc hmiss, hok]
    show (freshReturn rc (generate_schema_cache_key tn inc) ctx0).metaCached =
      some rc.connected
    cases hc : rc.connected with
    | true =>
      rw [freshReturn_connected rc _ ctx0 hc]
      rfl
    | false =>
      rw [freshReturn_disconnected rc _ ctx0 hc]
      have hcf := (run_pipeline_ok_fields db tn _ ctx0 hok).2.1
      show some ctx0.metadata.cached = some false
      rw [hcf]
  · intro ctx hc hg
    have h := fetch_eq_hit rc db tn inc ctx hc hg
    exact ⟨h, by rw [h]; rfl⟩

/-- Concrete instance of C1 amended: the connected, failing-write backend
of the counterexample indeed reports `metadata.cached = true` on a fresh
computation. -/
theorem C1_witness :
    (fetch_schema_context rcConnected dbEmpty none false).metaCached = some true :=
  (C1_amended rcConnected dbEmpty none false).1 ctxEmpty rfl (Or.inr rfl)

/-- C2, as frozen, is refuted: when the per-column value queries for column
`c` of table `t` raise, the column is **not** omitted from
`column_value_analysis` — it is recorded with the initial analysis
(`is_categorical = false`, empty `unique_values`, the inferred semantic
type), because the failed queries only skip the categorical-detection step
(lines 191-200) while lines 202-204 still store the analysis. -/
theorem C2_counterexample :
    pipelineAnalysisAt (failOn dbA "t" "c") none "k" "t" "c" =
      some { is_categorical := false, unique_values := [], semantic_type := "unknown" } ∧
    pipelineColumnInfoAt (failOn dbA "t" "c") none "k" "t" "c" =
      some { data_type := "text", is_nullable := true } := by
  decide

/-- C2 amended: injecting a profiling failure for one column keeps that
column in `column_value_analysis` with the initial (non-categorical,
empty-sample) analysis, leaves every other column's analysis, the `tables`
mapping, and the success/error status of the run unchanged. -/
theorem C2_amended (db : Database) (tn : Option (List String)) (k t c : String) :
    pipelineAnalysisAt (failOn db t c) tn k t c =
      (pipelineColumnInfoAt (failOn db t c) tn k t c).map
        (fun info => initialColumnAnalysis c info) ∧
    (∀ t0 c0 : String, ¬(t0 = t ∧ c0 = c) →
      pipelineAnalysisAt (failOn db t c) tn k t0 c0 = pipelineAnalysisAt db tn k t0 c0) ∧
    pipelineTablesOf (failOn db t c) tn k = pipelineTablesOf db tn k ∧
    (run_pipeline (failOn db t c) tn k).isOk = (run_pipeline db tn k).isOk := by
  have hfail : (failOn db t c).profile t c = none := by simp [failOn]
  unfold pipelineAnalysisAt pipelineColumnInfoAt pipelineTablesOf
  rw [run_pipeline_failOn db tn k t c]
  rcases hr : run_pipeline db tn k with e | ctx
  · exact ⟨rfl, fun _ _ _ => rfl, rfl, rfl⟩
  · refine ⟨?_, ?_, rfl, rfl⟩
    · show getAnalysis (_analyze_column_values (failOn db t c) ctx.tables) t c =
        Option.map (fun info => initialColumnAnalysis c info)
          (match alistGet t ctx.tables with
           | some ti => alistGet c ti.columns
           | none => none)
      rw [getAnalysis_analyze]
      cases alistGet t ctx.tables with
      | none => rfl
      | some ti =>
        show Option.map (fun info => analyzeOneColumn (failOn db t c) t c info)
            (alistGet c ti.columns) =
          Option.map (fun info => initialColumnAnalysis c info) (alistGet c ti.columns)
        cases alistGet c ti.columns with
        | none => rfl
        | some info =>
          show some (analyzeOneColumn (failOn db t c) t c info) =
            some (initialColumnAnalysis c info)
          rw [analyzeOneColumn_fail _ _ _ _ hfail]
    · intro t0 c0 hne
      have hcva : ctx.column_value_analysis = _analyze_column_values db ctx.tables := by
        have h1 := (run_pipeline_ok_fields db tn k ctx hr).1
        exact congrArg SchemaContext.column_value_analysis h1
      show getAnalysis (_analyze_column_values (failOn db t c) ctx.tables) t0 c0 =
        getAnalysis ctx.column_value_analysis t0 c0
      rw [hcva, getAnalysis_analyze, getAnalysis_analyze]
      cases alistGet t0 ctx.tables with
      | none => rfl
      | some ti =>
        show Option.map (fun info => analyzeOneColumn (failOn db t c) t0 c0 info)
            (alistGet c0 ti.columns) =
          Option.map (fun info => analyzeOneColumn db t0 c0 info) (alistGet c0 ti.columns)
        have hcongr : ∀ info : ColumnInfo,
            analyzeOneColumn (failOn db t c) t0 c0 info = analyzeOneColumn db t0 c0 info := by
          intro info
          apply analyzeOneColumn_congr
          simp only [failOn]
          rw [if_neg hne]
        cases alistGet c0 ti.columns with
        | none => rfl
        | some info =>
          show some (analyzeOneColumn (failOn db t c) t0 c0 info) =
            some (analyzeOneColumn db t0 c0 info)
          rw [hcongr info]

/-- Concrete instance of C2 amended: with the two-column catalog of `dbA`,
failing the profiling of column `c` leaves column `d`'s analysis and the
`tables` mapping identical to the unfailed run. -/
theorem C2_witness :
    pipelineAnalysisAt (failOn dbA "t" "c") none "k" "t" "d" =
      pipelineAnalysisAt dbA none "k" "t" "d" ∧
    pipelineTablesOf (failOn dbA "t" "c") none "k" = pipelineTablesOf dbA none "k" := by
  have h := C2_amended dbA none "k" "t" "c"
  exact ⟨h.2.1 "t" "d" (by decide), h.2.2.1⟩

/-- C8 confirmed: every result of `fetch_schema_context` is either the
structured success dict or a structured error; an error result arises
exactly from a pipeline failure (database errors and unexpected errors are
caught and mapped to "Database error: ..." / "Unexpected error: ..."), the
fresh path always returns a success result, and the cache backend (which
returns values rather than raising in this embedding, as the dummy client
does) never produces an error result. -/
theorem C8_theorem (rc : RedisClient) (db : Database) (tn : Option (List String))
    (inc : Bool) :
    (∀ e : PyErr, run_pipeline db tn (generate_schema_cache_key tn inc) = .error e →
      (rc.connected = false ∨
        rc.get_cached_schema (generate_schema_cache_key tn inc) = none) →
      fetch_schema_context rc db tn inc = .error (errMessage e)) ∧
    (∀ (msg : String) (ctx0 : SchemaContext),
      fetch_schema_context rc db tn inc = .error msg →
      run_pipeline db tn (generate_schema_cache_key tn inc) = .ok ctx0 → False) ∧
    (∀ ctx0 : SchemaContext,
      run_pipeline db tn (generate_schema_cache_key tn inc) = .ok ctx0 →
      (rc.connected = false ∨
        rc.get_cached_schema (generate_schema_cache_key tn inc) = none) →
      fetch_schema_context rc db tn inc =
        freshReturn rc (generate_schema_cache_key tn inc) ctx0) ∧
    (∀ (k1 : String) (ctx0 : SchemaContext), (freshReturn rc k1 ctx0).isSuccess = true) ∧
    (∀ ctx : SchemaContext, rc.connected = true →
      rc.get_cached_schema (generate_schema_cache_key tn inc) = some ctx →
      fetch_schema_context rc db tn inc = .success ctx true) ∧
    (∀ m : String, errMessage (.pgError m) = "Database error: " ++ m) ∧
    (∀ m : String, errMessage (.genError m) = "Unexpected error: " ++ m) := by
  refine ⟨?_, ?_, ?_, ?_, ?_, fun m => rfl, fun m => rfl⟩
  · intro e herr hmiss
    rw [fetch_eq_fresh rc db tn inc hmiss, herr]
  · intro msg ctx0 hmsg hok
    by_cases hc : rc.connected = true
    · cases hg : rc.get_cached_schema (generate_schema_cache_key tn inc) with
      | some ctx =>
        rw [fetch_eq_hit rc db tn inc ctx hc hg] at hmsg
        exact FetchResult.noConfusion hmsg
      | none =>
        rw [fetch_eq_fresh rc db tn inc (Or.inr hg), hok] at hmsg
        have hmsg2 : freshReturn rc (generate_schema_cache_key tn inc) ctx0 =
            FetchResult.error msg := hmsg
        rw [freshReturn_connected rc _ ctx0 hc] at hmsg2
        exact FetchResult.noConfusion hmsg2
    · have hcf : rc.connected = false := by
        revert hc; cases rc.connected <;> simp
      rw [fetch_eq_fresh rc db tn inc (Or.inl hcf), hok] at hmsg
      have hmsg2 : freshReturn rc (generate_schema_cache_key tn inc) ctx0 =
          FetchResult.error msg := hmsg
      rw [freshReturn_disconnected rc _ ctx0 hcf] at hmsg2
      exact FetchResult.noConfusion hmsg2
  · intro ctx0 hok hmiss
    rw [fetch_eq_fresh rc db tn inc hmiss, hok]
  · intro k1 ctx0
    cases hc : rc.connected with
    | true => rw [freshReturn_connected rc k1 ctx0 hc]; rfl
    | false => rw [freshReturn_disconnected rc k1 ctx0 hc]; rfl
  · intro ctx hc hg
    exact fetch_eq_hit rc db tn inc ctx hc hg

/-- Concrete instances of C8: a failing catalog query yields the structured
database-error result, and a clean run yields the fresh success result. -/
theorem C8_witness :
    fetch_schema_context standaloneRedisClient dbErr none false =
      .error (errMessage (.pgError "boom")) ∧
    fetch_schema_context standaloneRedisClient dbEmpty none false =
      freshReturn standaloneRedisClient (generate_schema_cache_key none false) ctxEmpty :=
  ⟨(C8_theorem standaloneRedisClient dbErr none false).1 (.pgError "boom") rfl (Or.inl rfl),
   (C8_theorem standaloneRedisClient dbEmpty none false).2.2.1 ctxEmpty rfl (Or.inl rfl)⟩

/-- C9 confirmed: with the bundled (disconnected) client, the request's
`includeSamples` flag changes nothing in the returned result except the
cache key stored in `metadata` — the stripped results coincide, and the
cache key of every success is exactly the generated key. -/
theorem C9_theorem (db : Database) (tn : Option (List String)) :
    (fetch_schema_context standaloneRedisClient db tn true).mapContext stripCacheKey =
      (fetch_schema_context standaloneRedisClient db tn false).mapContext stripCacheKey ∧
    (∀ (ctx : SchemaContext) (b : Bool),
      fetch_schema_context standaloneRedisClient db tn true = .success ctx b →
      ctx.metadata.cache_key = generate_schema_cache_key tn true) ∧
    (∀ (ctx : SchemaContext) (b : Bool),
      fetch_schema_context standaloneRedisClient db tn false = .success ctx b →
      ctx.metadata.cache_key = generate_schema_cache_key tn false) := by
  have hf1 := fetch_eq_fresh standaloneRedisClient db tn true (Or.inl rfl)
  have hf0 := fetch_eq_fresh standaloneRedisClient db tn false (Or.inl rfl)
  refine ⟨?_, ?_, ?_⟩
  · rw [hf1, hf0, run_pipeline_key db tn (generate_schema_cache_key tn true)
      (generate_schema_cache_key tn false)]
    rcases hr : run_pipeline db tn (generate_schema_cache_key tn false) with e | ctx
    · rfl
    · have hctx := (run_pipeline_ok_fields db tn _ ctx hr).1
      show FetchResult.mapContext stripCacheKey
          (freshReturn standaloneRedisClient (generate_schema_cache_key tn true)
            (assembleContext db ctx.tables (generate_schema_cache_key tn true))) =
        FetchResult.mapContext stripCacheKey
          (freshReturn standaloneRedisClient (generate_schema_cache_key tn false) ctx)
      rw [freshReturn_disconnected _ _ _ rfl, freshReturn_disconnected _ _ _ rfl]
      show FetchResult.success
          (stripCacheKey (assembleContext db ctx.tables (generate_schema_cache_key tn true)))
          (assembleContext db ctx.tables (generate_schema_cache_key tn true)).metadata.cached =
        FetchResult.success (stripCacheKey ctx) ctx.metadata.cached
      conv_rhs => rw [hctx]
      rfl
  · intro ctx b h
    rw [hf1] at h
    rcases hr : run_pipeline db tn (generate_schema_cache_key tn true) with e | ctx0 <;>
      rw [hr] at h
    · exact FetchResult.noConfusion h
    · have h2 : freshReturn standaloneRedisClient (generate_schema_cache_key tn true) ctx0 =
          FetchResult.success ctx b := h
      rw [freshReturn_disconnected _ _ _ rfl] at h2
      injection h2 with h3 h4
      subst h3
      exact (run_pipeline_ok_fields db tn _ ctx0 hr).2.2.1
  · intro ctx b h
    rw [hf0] at h
    rcases hr : run_pipeline db tn (generate_schema_cache_key tn false) with e | ctx0 <;>
      rw [hr] at h
    · exact FetchResult.noConfusion h
    · have h2 : freshReturn standaloneRedisClient (generate_schema_cache_key tn false) ctx0 =
          FetchResult.success ctx b := h
      rw [freshReturn_disconnected _ _ _ rfl] at h2
      injection h2 with h3 h4
      subst h3
      exact (run_pipeline_ok_fields db tn _ ctx0 hr).2.2.1

/-- Concrete instance of C9: on the empty catalog the two results agree
after stripping the cache key, and the with-samples run records the
with-samples key. -/
theorem C9_witness :
    (fetch_schema_context standaloneRedisClient dbEmpty none true).mapContext stripCacheKey =
      (fetch_schema_context standaloneRedisClient dbEmpty none false).mapContext stripCacheKey ∧
    ctxEmptyS.metadata.cache_key = generate_schema_cache_key none true :=
  ⟨(C9_theorem dbEmpty none).1,
   (C9_theorem dbEmpty none).2.1 ctxEmptyS false (by decide)⟩

/-- C10 confirmed: the bundled client always reports disconnected, so the
cache functions are never consulted (replacing them changes nothing), the
full pipeline always runs, every success carries `cached = false` both at
top level and in `metadata.cached`, and `relationships` is always empty. -/
theorem C10_theorem :
    standaloneRedisClient.is_connected = false ∧
    (∀ (g : String → Option SchemaContext) (w : String → Bool) (db : Database)
        (tn : Option (List String)) (inc : Bool),
      fetch_schema_context
        { standaloneRedisClient with get_cached_schema := g, cache_schema := w } db tn inc =
        fetch_schema_context standaloneRedisClient db tn inc) ∧
    (∀ (db : Database) (tn : Option (List String)) (inc : Bool),
      fetch_schema_context standaloneRedisClient db tn inc =
        match run_pipeline db tn (generate_schema_cache_key tn inc) with
        | .ok ctx => FetchResult.success ctx false
        | .error e => FetchResult.error (errMessage e)) ∧
    (∀ (db : Database) (tn : Option (List String)) (inc : Bool) (ctx : SchemaContext)
        (b : Bool),
      fetch_schema_context standaloneRedisClient db tn inc = .success ctx b →
      b = false ∧ ctx.metadata.cached = false ∧ ctx.relationships = []) := by
  refine ⟨rfl, ?_, ?_, ?_⟩
  · intro g w db tn inc
    rw [fetch_eq_fresh
        { standaloneRedisClient with get_cached_schema := g, cache_schema := w }
        db tn inc (Or.inl rfl),
      fetch_eq_fresh standaloneRedisClient db tn inc (Or.inl rfl)]
    rcases run_pipeline db tn (generate_schema_cache_key tn inc) with e | ctx
    · rfl
    · rfl
  · intro db tn inc
    rw [fetch_eq_fresh standaloneRedisClient db tn inc (Or.inl rfl)]
    rcases hr : run_pipeline db tn (generate_schema_cache_key tn inc) with e | ctx
    · rfl
    · show freshReturn standaloneRedisClient (generate_schema_cache_key tn inc) ctx =
        FetchResult.success ctx false
      rw [freshReturn_disconnected _ _ _ rfl,
        (run_pipeline_ok_fields db tn _ ctx hr).2.1]
  · intro db tn inc ctx b h
    rw [fetch_eq_fresh standaloneRedisClient db tn inc (Or.inl rfl)] at h
    rcases hr : run_pipeline db tn (generate_schema_cache_key tn inc) with e | ctx0 <;>
      rw [hr] at h
    · exact FetchResult.noConfusion h
    · have h2 : freshReturn standaloneRedisClient (generate_schema_cache_key tn inc) ctx0 =
          FetchResult.success ctx b := h
      rw [freshReturn_disconnected _ _ _ rfl] at h2
      injection h2 with h3 h4
      subst h3
      subst h4
      have hf := run_pipeline_ok_fields db tn _ ctx0 hr
      exact ⟨hf.2.1, hf.2.1, hf.2.2.2⟩

/-- Concrete instance of C10: the empty-catalog run returns the fresh
context with both cached flags false and no relationships. -/
theorem C10_witness :
    false = false ∧ ctxEmpty.metadata.cached = false ∧ ctxEmpty.relationships = [] :=
  C10_theorem.2.2.2 dbEmpty none false ctxEmpty false (by decide)

/-! ## Helper lemmas: dictionary folds and last-write-wins -/

theorem getLast?_cons_or {α : Type} (a : α) (l : List α) :
    (a :: l).getLast? = l.getLast?.or (some a) := by
  induction l generalizing a with
  | nil => rfl
  | cons b t ih =>
    rw [List.getLast?_cons_cons, ih b]
    cases t.getLast? <;> rfl

theorem alistGet_insert {α : Type} (k k1 : String) (v : α) :
    ∀ l : List (String × α),
      alistGet k (alistInsert k1 v l) = if k1 = k then some v else alistGet k l
  | [] => by simp [alistInsert, alistGet]
  | (k2, v2) :: rest => by
    by_cases h : k2 = k1
    · subst h
      by_cases h2 : k2 = k <;> simp [alistInsert, alistGet, h2]
    · by_cases h2 : k2 = k
      · subst h2
        have h3 : k1 ≠ k2 := fun he => h he.symm
        simp [alistInsert, alistGet, h, h3]
      · simp [alistInsert, alistGet, h, h2, alistGet_insert k k1 v rest]

theorem alistGet_foldl_insert {α : Type} (k : String) :
    ∀ (entries : List (String × α)) (init : List (String × α)),
      alistGet k (entries.foldl (fun acc e => alistInsert e.1 e.2 acc) init) =
        ((entries.filter (fun e => e.1 == k)).getLast?.map Prod.snd).or (alistGet k init)
  | [], init => by simp
  | e :: rest, init => by
    rw [List.foldl_cons, alistGet_foldl_insert k rest, List.filter_cons]
    by_cases h : e.1 = k
    · rw [alistGet_insert, if_pos h, if_pos (by simp [h]), getLast?_cons_or]
      cases (rest.filter (fun e2 => e2.1 == k)).getLast? with
      | none => rfl
      | some p => rfl
    · rw [alistGet_insert, if_neg h, if_neg (by simp [h])]

theorem foldl_insertEntityVal (t c : String) :
    ∀ (values : List PyVal) (acc : List (String × EntityMapping)),
      values.foldl (insertEntityVal t c) acc =
        (values.filterMap (valueEntry t c)).foldl (fun a e => alistInsert e.1 e.2 a) acc
  | [], _ => rfl
  | v :: rest, acc => by
    rw [List.foldl_cons, List.filterMap_cons]
    cases hv : pyTruthyStr v with
    | none =>
      have h1 : insertEntityVal t c acc v = acc := by simp [insertEntityVal, hv]
      have h2 : valueEntry t c v = none := by simp [valueEntry, hv]
      rw [h1, h2]
      exact foldl_insertEntityVal t c rest acc
    | some s =>
      have h1 : insertEntityVal t c acc v =
          alistInsert (entityKey s) (mkEntityMapping t c s) acc := by
        simp [insertEntityVal, hv]
      have h2 : valueEntry t c v = some (entityKey s, mkEntityMapping t c s) := by
        simp [valueEntry, hv]
      rw [h1, h2]
      exact foldl_insertEntityVal t c rest _

theorem processColumn_eq (cva : List (String × List (String × ColumnAnalysis)))
    (t c : String) (acc : List (String × EntityMapping)) :
    processColumn cva t c acc =
      (columnEntries cva t c).foldl (fun a e => alistInsert e.1 e.2 a) acc := by
  unfold processColumn columnEntries
  cases getAnalysis cva t c with
  | none => rfl
  | some a =>
    show (if a.is_categorical = true then
        List.foldl (insertEntityVal t c) acc a.unique_values else acc) =
      List.foldl (fun a e => alistInsert e.1 e.2 a) acc
        (if a.is_categorical = true then
          List.filterMap (valueEntry t c) a.unique_values else [])
    by_cases h : a.is_categorical = true
    · rw [if_pos h, if_pos h]
      exact foldl_insertEntityVal t c a.unique_values acc
    · rw [if_neg h, if_neg h]
      rfl

theorem foldl_insert_flatMap {β : Type} (f : β → List (String × EntityMapping)) :
    ∀ (l : List β) (acc : List (String × EntityMapping)),
      l.foldl (fun a x => (f x).foldl (fun a2 e => alistInsert e.1 e.2 a2) a) acc =
        (l.flatMap f).foldl (fun a e => alistInsert e.1 e.2 a) acc
  | [], _ => rfl
  | x :: rest, acc => by
    rw [List.foldl_cons, List.flatMap_cons, List.foldl_append]
    exact foldl_insert_flatMap f rest _

theorem build_entity_mappings_eq (tables : List (String × TableInfo))
    (cva : List (String × List (String × ColumnAnalysis))) :
    _build_entity_mappings tables cva =
      (entityEntries tables cva).foldl (fun a e => alistInsert e.1 e.2 a) [] := by
  unfold _build_entity_mappings entityEntries
  rw [← foldl_insert_flatMap]
  congr 1
  funext acc t
  rw [← foldl_insert_flatMap]
  congr 1
  funext a c
  exact processColumn_eq cva t.1 c.1 a

/-- C6 confirmed: the final entity-mapping dict is characterised exactly by
the transparent insertion stream `entityEntries` (tables in insertion
order, then columns, then observed values; non-empty strings only, each
deriving its pluralised lowercase term and its table/filter mapping): a
term's final mapping is the **last** entry for that term in iteration
order, and terms with no entry are absent. -/
theorem C6_theorem (tables : List (String × TableInfo))
    (cva : List (String × List (String × ColumnAnalysis))) (k : String) :
    alistGet k (_build_entity_mappings tables cva) =
      ((entityEntries tables cva).filter (fun e => e.1 == k)).getLast?.map Prod.snd := by
  rw [build_entity_mappings_eq, alistGet_foldl_insert]
  rw [show alistGet k ([] : List (String × EntityMapping)) = none from rfl, Option.or_none]

/-! ## Helper lemma: looking up a table purpose -/

theorem alistGet_semantic (t : String) :
    ∀ tables : List (String × TableInfo),
      alistGet t (_create_semantic_context tables) =
        (alistGet t tables).map (fun ti => table_purpose t ti)
  | [] => rfl
  | (k1, ti) :: rest => by
    simp only [_create_semantic_context, List.map, alistGet]
    by_cases h : k1 = t
    · subst h; simp
    · simp only [if_neg h]
      have ih := alistGet_semantic t rest
      simp only [_create_semantic_context] at ih
      exact ih

/-- C7 confirmed: the semantic annotator assigns a purpose to exactly the
discovered tables (same key sequence), and the purpose is the
authentication string precisely when the lowercased column names include
both "email" and "password", the generic fallback otherwise. -/
theorem C7_theorem (tables : List (String × TableInfo)) (t : String) (ti : TableInfo)
    (h : alistGet t tables = some ti) :
    alistGet t (_create_semantic_context tables) =
      some (if "email" ∈ ti.columns.map (fun cp => lowerStr cp.1) ∧
               "password" ∈ ti.columns.map (fun cp => lowerStr cp.1)
            then "User authentication and profile data"
            else "Stores " ++ t ++ " information") ∧
    (_create_semantic_context tables).map Prod.fst = tables.map Prod.fst := by
  constructor
  · rw [alistGet_semantic, h]
    rfl
  · simp [_create_semantic_context]

/-- Concrete instance of C7: a table with (case-insensitive) email and
password columns gets the authentication purpose; a table without them
gets the generic fallback. -/
theorem C7_witness :
    alistGet "users" (_create_semantic_context tablesUsersOrders) =
      some "User authentication and profile data" ∧
    alistGet "orders" (_create_semantic_context tablesUsersOrders) =
      some "Stores orders information" := by
  constructor
  · have h := (C7_theorem tablesUsersOrders "users" tiUsers rfl).1
    rw [h, if_pos (by decide)]
  · have h := (C7_theorem tablesUsersOrders "orders" tiOrders rfl).1
    rw [h, if_neg (by decide)]
    decide
